import Mathlib

/-!
lxbot/adapter-line: a shallow embedding of `adapter.go`.

The adapter is glue between three libraries: the LINE bot SDK (`linebot`), the
bot framework's message library (`lxlib`, `mapstructure`) and the Go standard
library (`crypto/hmac`, `crypto/sha256`, `encoding/base64`, `net/http`).

* Go byte slices, and Go strings that hold encoded data (the secret, the
  signature header, a JSON payload), are lists of natural numbers below 256;
  identifiers and message texts are Lean strings.
* A Go `(value, error)` result is a pair whose second component is `none`
  for a `nil` error; a pointer result is an `Option` (`none` is `nil`).
* Dereferencing a `nil` pointer is the outcome `panicked`. The pointers that
  can be `nil` are the profile returned by `GetProfile` and the field
  `event.Source`, a `*EventSource`.
* The platform calls (`GetProfile`, `PushMessage`, `ReplyMessage`) and the
  codecs of `linebot`, `lxlib` and `mapstructure` are fields of the record
  `Libs`, which the functions of `adapter.go` that use them take as their
  first argument.
* The range loop of `postMessaging` has one loop variable for all its
  iterations, as in every Go version before 1.22 (the file predates it: it
  still reads bodies with `io/ioutil`), and the callbacks registered with
  `Response.After` run when `c.String` writes the response, after the loop.
* `log.Println` output is not part of the model.
-/

namespace AdapterLine

/-- Go `[]byte` and Go `string`: a sequence of bytes. -/
abbrev Bytes := List Nat

/-- The bytes of an ASCII string literal. -/
def ascii (s : String) : Bytes := s.toList.map Char.toNat

/-! ## `crypto/sha256` (FIPS 180-4) -/

namespace SHA256

/-- Addition of 32-bit words. -/
def add32 (a b : Nat) : Nat := (a + b) % 4294967296

/-- Rotate a 32-bit word right by `n` bits. -/
def rotr (x n : Nat) : Nat := ((x >>> n) ||| (x <<< (32 - n))) % 4294967296

/-- Bitwise complement of a 32-bit word. -/
def not32 (x : Nat) : Nat := x ^^^ 4294967295

def ch (x y z : Nat) : Nat := (x &&& y) ^^^ (not32 x &&& z)

def maj (x y z : Nat) : Nat := (x &&& y) ^^^ (x &&& z) ^^^ (y &&& z)

def bigSigma0 (x : Nat) : Nat := rotr x 2 ^^^ rotr x 13 ^^^ rotr x 22

def bigSigma1 (x : Nat) : Nat := rotr x 6 ^^^ rotr x 11 ^^^ rotr x 25

def smallSigma0 (x : Nat) : Nat := rotr x 7 ^^^ rotr x 18 ^^^ (x >>> 3)

def smallSigma1 (x : Nat) : Nat := rotr x 17 ^^^ rotr x 19 ^^^ (x >>> 10)

/-- The sixty-four round constants. -/
def K : List Nat :=
  [0x428a2f98, 0x71374491, 0xb5c0fbcf, 0xe9b5dba5, 0x3956c25b, 0x59f111f1, 0x923f82a4, 0xab1c5ed5,
   0xd807aa98, 0x12835b01, 0x243185be, 0x550c7dc3, 0x72be5d74, 0x80deb1fe, 0x9bdc06a7, 0xc19bf174,
   0xe49b69c1, 0xefbe4786, 0x0fc19dc6, 0x240ca1cc, 0x2de92c6f, 0x4a7484aa, 0x5cb0a9dc, 0x76f988da,
   0x983e5152, 0xa831c66d, 0xb00327c8, 0xbf597fc7, 0xc6e00bf3, 0xd5a79147, 0x06ca6351, 0x14292967,
   0x27b70a85, 0x2e1b2138, 0x4d2c6dfc, 0x53380d13, 0x650a7354, 0x766a0abb, 0x81c2c92e, 0x92722c85,
   0xa2bfe8a1, 0xa81a664b, 0xc24b8b70, 0xc76c51a3, 0xd192e819, 0xd6990624, 0xf40e3585, 0x106aa070,
   0x19a4c116, 0x1e376c08, 0x2748774c, 0x34b0bcb5, 0x391c0cb3, 0x4ed8aa4a, 0x5b9cca4f, 0x682e6ff3,
   0x748f82ee, 0x78a5636f, 0x84c87814, 0x8cc70208, 0x90befffa, 0xa4506ceb, 0xbef9a3f7, 0xc67178f2]

/-- The eight working variables, also the chaining value. -/
structure Vars where
  a : Nat
  b : Nat
  c : Nat
  d : Nat
  e : Nat
  f : Nat
  g : Nat
  h : Nat
deriving DecidableEq, Repr

/-- The initial hash value. -/
def init : Vars :=
  ⟨0x6a09e667, 0xbb67ae85, 0x3c6ef372, 0xa54ff53a, 0x510e527f, 0x9b05688c, 0x1f83d9ab, 0x5be0cd19⟩

/-- One round: `w` is the window of the sixteen most recent schedule words,
its head the word of this round. -/
def round (s : Vars × List Nat) (k : Nat) : Vars × List Nat :=
  let v := s.1
  let w := s.2
  let t1 := add32 (add32 (add32 (add32 v.h (bigSigma1 v.e)) (ch v.e v.f v.g)) k) (w.getD 0 0)
  let t2 := add32 (bigSigma0 v.a) (maj v.a v.b v.c)
  let next := add32 (add32 (add32 (smallSigma1 (w.getD 14 0)) (w.getD 9 0))
    (smallSigma0 (w.getD 1 0))) (w.getD 0 0)
  (⟨add32 t1 t2, v.a, v.b, v.c, add32 v.d t1, v.e, v.f, v.g⟩, w.tail ++ [next])

/-- The sixteen big-endian words of a 64-byte block. -/
def words (block : Bytes) : List Nat :=
  (List.range 16).map fun j =>
    block.getD (4 * j) 0 * 16777216 + block.getD (4 * j + 1) 0 * 65536
      + block.getD (4 * j + 2) 0 * 256 + block.getD (4 * j + 3) 0

/-- The compression function on one block. -/
def compress (hv : Vars) (block : Bytes) : Vars :=
  let r := (K.foldl round (hv, words block)).1
  ⟨add32 hv.a r.a, add32 hv.b r.b, add32 hv.c r.c, add32 hv.d r.d,
   add32 hv.e r.e, add32 hv.f r.f, add32 hv.g r.g, add32 hv.h r.h⟩

/-- A number as `n` big-endian bytes. -/
def bigEndian : Nat → Nat → Bytes
  | 0, _ => []
  | n + 1, x => bigEndian n (x / 256) ++ [x % 256]

/-- The message followed by the padding: 0x80, zeros, the bit length on 8 bytes. -/
def pad (msg : Bytes) : Bytes :=
  msg ++ [128] ++ List.replicate ((64 - (msg.length + 9) % 64) % 64) 0
    ++ bigEndian 8 (8 * msg.length)

/-- The 64-byte blocks of a padded message. -/
def blocks (p : Bytes) : List Bytes :=
  (List.range (p.length / 64)).map fun i => (p.drop (64 * i)).take 64

/-- The four big-endian bytes of a word. -/
def wordBytes (x : Nat) : Bytes :=
  [x / 16777216 % 256, x / 65536 % 256, x / 256 % 256, x % 256]

/-- The 32-byte digest of a message: `sha256.Sum256`. -/
def sum (msg : Bytes) : Bytes :=
  let r := (blocks (pad msg)).foldl compress init
  wordBytes r.a ++ wordBytes r.b ++ wordBytes r.c ++ wordBytes r.d
    ++ wordBytes r.e ++ wordBytes r.f ++ wordBytes r.g ++ wordBytes r.h

end SHA256

/-! ## `crypto/hmac` -/

/-- The MAC of `hmac.New(sha256.New, key)` after `Write(msg)`: `Sum(nil)`
(RFC 2104 with block size 64). -/
def hmacSHA256 (key msg : Bytes) : Bytes :=
  let k0 := if 64 < key.length then SHA256.sum key else key
  let k := k0 ++ List.replicate (64 - k0.length) 0
  SHA256.sum (k.map (· ^^^ 92) ++ SHA256.sum (k.map (· ^^^ 54) ++ msg))

/-- Go `hmac.Equal`: true exactly when the two MACs have the same length and
the same bytes. -/
def hmacEqual (mac1 mac2 : Bytes) : Bool := decide (mac1 = mac2)

/-! ## `encoding/base64`, `StdEncoding` -/

namespace Base64

/-- The entry of `StdEncoding`'s decode map for an input byte: the 6-bit value of
an alphabet character (`A-Z`, `a-z`, `0-9`, `+`, `/`), `none` for every other
byte (Go's `0xff` entry). -/
def decodeMap (c : Nat) : Option Nat :=
  if 65 ≤ c ∧ c ≤ 90 then some (c - 65)
  else if 97 ≤ c ∧ c ≤ 122 then some (c - 71)
  else if 48 ≤ c ∧ c ≤ 57 then some (c + 4)
  else if c = 43 then some 62
  else if c = 47 then some 63
  else none

/-- The alphabet character of a 6-bit value. -/
def encodeChar (v : Nat) : Nat :=
  if v < 26 then v + 65
  else if v < 52 then v + 71
  else if v < 62 then v - 4
  else if v = 62 then 43
  else 47

/-- The padding character `=`. -/
def padChar : Nat := 61

/-- Go `EncodeToString` of `StdEncoding`: three bytes give four characters, a
final group of one or two bytes is padded with `=`. -/
def EncodeToString : Bytes → Bytes
  | a :: b :: c :: rest =>
    encodeChar (a / 4) :: encodeChar (a % 4 * 16 + b / 16)
      :: encodeChar (b % 16 * 4 + c / 64) :: encodeChar (c % 64) :: EncodeToString rest
  | [a, b] => [encodeChar (a / 4), encodeChar (a % 4 * 16 + b / 16), encodeChar (b % 16 * 4), padChar]
  | [a] => [encodeChar (a / 4), encodeChar (a % 4 * 16), padChar, padChar]
  | [] => []

/-- The decoder's "skip over newlines" loop. -/
def skipNewlines : Bytes → Bytes
  | [] => []
  | c :: rest => if c = 10 ∨ c = 13 then skipNewlines rest else c :: rest

/-- The 24-bit value of four 6-bit digits. -/
def quantum (d0 d1 d2 d3 : Nat) : Nat := d0 * 262144 + d1 * 4096 + d2 * 64 + d3

/-- Go's `CorruptInputError`; the byte offset it carries is left out. -/
def corrupt : String := "illegal base64 data"

/-- Go `Decode` of `StdEncoding` (padded, not strict), as its repeated
`decodeQuantum`: `dbuf` holds the digits read for the current group of four,
`out` the bytes decoded so far. CR and LF are skipped anywhere; a byte outside
the alphabet is an error; `=` is accepted only after two digits (then a second
`=` must follow) or three, and only newlines may follow the padding; the input
may not end inside a group. The unused low bits of the last digit before a
padding are not checked (they would be under `Strict`). -/
def decodeLoop : Bytes → List Nat → Bytes → Except String Bytes
  | [], dbuf, out => if dbuf = [] then .ok out else .error corrupt
  | c :: rest, dbuf, out =>
    match decodeMap c with
    | some v =>
      match dbuf with
      | [d0, d1, d2] =>
        let val := quantum d0 d1 d2 v
        decodeLoop rest [] (out ++ [val / 65536 % 256, val / 256 % 256, val % 256])
      | _ => decodeLoop rest (dbuf ++ [v]) out
    | none =>
      if c = 10 ∨ c = 13 then decodeLoop rest dbuf out
      else if c ≠ padChar then .error corrupt
      else
        match dbuf with
        | [d0, d1] =>
          match skipNewlines rest with
          | [] => .error corrupt
          | p :: rest2 =>
            if p ≠ padChar then .error corrupt
            else if skipNewlines rest2 ≠ [] then .error corrupt
            else .ok (out ++ [quantum d0 d1 0 0 / 65536 % 256])
        | [d0, d1, d2] =>
          if skipNewlines rest ≠ [] then .error corrupt
          else
            let val := quantum d0 d1 d2 0
            .ok (out ++ [val / 65536 % 256, val / 256 % 256])
        | _ => .error corrupt

/-- Go `base64.StdEncoding.DecodeString`: the decoded bytes, or the error. -/
def DecodeString (s : Bytes) : Except String Bytes := decodeLoop s [] []

end Base64

/-! ## The signature middleware -/

/-- The part of the incoming request the middleware reads: the result of
`ioutil.ReadAll` on the body, and the `X-Line-Signature` header when the
request carries one. -/
structure Request where
  Body : Bytes × Option String
  XLineSignature : Option Bytes
deriving DecidableEq, Repr

/-- Go `Header.Get`: the empty string for a header that is not set. -/
def headerGet (h : Option Bytes) : Bytes := h.getD []

/-- What the handler returned by the middleware does with a request: it
answers with an empty response of the given status and does not call `next`,
or it calls `next` on a request whose body reads as `body`. -/
inductive Handled where
  | noContent (status : Nat)
  | next (body : Bytes)
deriving DecidableEq, Repr

def StatusNotAcceptable : Nat := 406

def StatusForbidden : Nat := 403

def StatusUnauthorized : Nat := 401

/-- `isValidLineSignature(next)` applied to a request, `channelSecret` being
the package variable of that name. -/
def isValidLineSignature (channelSecret : Bytes) (req : Request) : Handled :=
  match req.Body with
  | (_, some _) => .noContent StatusNotAcceptable
  | (body, none) =>
    let xLineSignature := headerGet req.XLineSignature
    match Base64.DecodeString xLineSignature with
    | .error _ => .noContent StatusForbidden
    | .ok decoded =>
      if !hmacEqual (hmacSHA256 channelSecret body) decoded then
        .noContent StatusUnauthorized
      else
        .next body

/-- Whether the handler passed the request on to `next`. -/
def Handled.nextInvoked : Handled → Bool
  | .next _ => true
  | .noContent _ => false

/-! ## The LINE SDK's data (`linebot`) -/

namespace linebot

/-- Go `linebot.EventType`, a string type. -/
abbrev EventType := String

def EventTypeMessage : EventType := "message"

def EventTypeFollow : EventType := "follow"

def EventTypeUnfollow : EventType := "unfollow"

def EventTypeJoin : EventType := "join"

def EventTypeLeave : EventType := "leave"

def EventTypePostback : EventType := "postback"

def EventTypeBeacon : EventType := "beacon"

/-- The fields of `linebot.EventSource` the adapter reads. -/
structure EventSource where
  UserID : String
  RoomID : String
deriving DecidableEq, Repr

/-- The dynamic type of `event.Message` with the fields the adapter reads:
the four message types of the type switch, and `other` for `nil` and for every
other message type (sticker, location, file, ...). -/
inductive Message where
  | TextMessage (ID Text : String)
  | ImageMessage (ID OriginalContentURL : String)
  | AudioMessage (ID OriginalContentURL : String)
  | VideoMessage (ID OriginalContentURL : String)
  | other
deriving DecidableEq, Repr

/-- The fields of `linebot.Event` the adapter reads (`Type_` is the Go field
`Type`). `Source` is a pointer: `none` is the `nil` of an event decoded from
a payload without a source. -/
structure Event where
  ReplyToken : String
  Type_ : EventType
  Source : Option EventSource
  Message : Message
deriving DecidableEq, Repr

/-- The field of `linebot.UserProfileResponse` the adapter reads. -/
structure UserProfileResponse where
  DisplayName : String
deriving DecidableEq, Repr

end linebot

/-- The struct `Raw` of `adapter.go`. -/
structure Raw where
  EventType : linebot.EventType
  Event : Bytes
deriving DecidableEq, Repr

/-! ## The framework's message (`lxlib`) -/

namespace lxlib

structure User where
  ID : String
  Name : String
deriving DecidableEq, Repr

structure Room where
  ID : String
  Name : String
  Description : String
deriving DecidableEq, Repr

structure Attachment where
  Url : String
  Description : String
deriving DecidableEq, Repr

structure Message where
  ID : String
  Text : String
  Attachments : List Attachment
deriving DecidableEq, Repr

/-- The Go `interface{}` held by `LXMessage.Raw`: a `Raw` struct (what
`sendToLxbot` stores), a pointer to one (what `parseMsg` stores), or any
other dynamic value, of type `D`. -/
inductive RawField (D : Type) where
  | struct (r : Raw)
  | pointer (r : Raw)
  | dyn (d : D)
deriving DecidableEq, Repr

/-- The fields of `lxlib.LXMessage` the adapter reads or writes. -/
structure LXMessage (D : Type) where
  User : User
  Room : Room
  Message : Message
  Raw : RawField D
deriving DecidableEq, Repr

end lxlib

/-! ## The libraries the adapter calls -/

/-- The library functions `adapter.go` calls, as parameters. `M` is the Go
type `map[string]interface{}`, `D` the dynamic values a decoded map can hold
in its raw field. -/
structure Libs (M D : Type) where
  /-- The call `bot.GetProfile(uid).Do()`: the profile pointer and the error. -/
  GetProfile : String → Option linebot.UserProfileResponse × Option String
  /-- The call `bot.PushMessage(to, linebot.NewTextMessage(text)).Do()`: the error. -/
  PushMessage : String → String → Option String
  /-- The call `bot.ReplyMessage(replyToken, linebot.NewTextMessage(text)).Do()`: the error. -/
  ReplyMessage : String → String → Option String
  /-- The method `event.MarshalJSON()`: the bytes and the error. -/
  MarshalJSON : linebot.Event → Bytes × Option String
  /-- The method `UnmarshalJSON` on a new `linebot.Event`. -/
  UnmarshalJSON : Bytes → Except String linebot.Event
  /-- The empty map `lxlib.M{}`. -/
  emptyM : M
  /-- The constructor `lxlib.NewLXMessage(msg)`. -/
  NewLXMessage : M → Except String (lxlib.LXMessage D)
  /-- The method `lxmsg.ToMap()`: the map and the error. -/
  ToMap : lxlib.LXMessage D → M × Option String
  /-- The call `mapstructure.Decode(input, raw)` into a new `Raw`. -/
  Decode : lxlib.RawField D → Except String Raw

/-- How a call of an adapter function ends: after the listed effects it
panics (a `nil` pointer is dereferenced), or it returns. -/
inductive Outcome (α : Type) where
  | panicked (effects : List α)
  | returned (effects : List α)
deriving DecidableEq, Repr

/-- The outcome of a call made after the effects `done`. -/
def Outcome.after {α : Type} (done : List α) : Outcome α → Outcome α
  | .panicked effects => .panicked (done ++ effects)
  | .returned effects => .returned (done ++ effects)

/-! ## Inbound: `postMessaging` and `sendToLxbot` -/

open linebot in
/-- `sendToLxbot(eventType, event)`: the values it sends on the channel `*ch`.
It panics at `event.Source.UserID` when the event has no source, and at
`profile.DisplayName` when the profile pointer is `nil`. -/
def sendToLxbot {M D : Type} (libs : Libs M D) (eventType : EventType) (event : Event) :
    Outcome M :=
  let b := (libs.MarshalJSON event).1
  match event.Source with
  | none => .panicked []
  | some source =>
    let uid := source.UserID
    let profile := (libs.GetProfile uid).1
    match libs.NewLXMessage libs.emptyM with
    | .error _ => .returned []
    | .ok lxmsg =>
      match profile with
      | none => .panicked []
      | some profile =>
        let lxmsg := { lxmsg with
          User := { ID := uid, Name := profile.DisplayName }
          Room := { ID := source.RoomID, Name := "LINE", Description := "LINE" }
          Raw := .struct { EventType := eventType, Event := b } }
        let lxmsg :=
          match event.Message with
          | .TextMessage id text =>
            { lxmsg with Message := { ID := id, Text := text, Attachments := [] } }
          | .ImageMessage id url =>
            { lxmsg with Message :=
                { ID := id, Text := "[IMAGE MESSAGE]",
                  Attachments := [{ Url := url, Description := "" }] } }
          | .AudioMessage id url =>
            { lxmsg with Message :=
                { ID := id, Text := "[AUDIO MESSAGE]",
                  Attachments := [{ Url := url, Description := "" }] } }
          | .VideoMessage id url =>
            { lxmsg with Message :=
                { ID := id, Text := "[VIDEO MESSAGE]",
                  Attachments := [{ Url := url, Description := "" }] } }
          | .other => lxmsg
        .returned [(libs.ToMap lxmsg).1]

/-- A callback registered with `c.Response().After`. Its body reads the loop
variable `event` when it runs; the argument is the value of that variable
then. The result is the call of `sendToLxbot` it makes. -/
abbrev AfterFunc := linebot.Event → linebot.EventType × linebot.Event

open linebot in
/-- The `switch event.Type` of the loop body: the callback it registers. -/
def registered (t : EventType) : Option AfterFunc :=
  if t = EventTypeMessage then some fun event => (EventTypeMessage, event)
  else if t = EventTypePostback then some fun event => (EventTypePostback, event)
  else if t = EventTypeFollow then some fun event => (EventTypeFollow, event)
  else if t = EventTypeUnfollow then some fun event => (EventTypeUnfollow, event)
  else if t = EventTypeJoin then some fun event => (EventTypeJoin, event)
  else if t = EventTypeLeave then some fun event => (EventTypeLeave, event)
  else if t = EventTypeBeacon then some fun event => (EventTypeBeacon, event)
  else none

/-- The state of `for _, event := range events`: the loop variable `event`
and the callbacks registered on the response so far. -/
structure LoopState where
  event : Option linebot.Event
  afterFuncs : List AfterFunc

/-- One iteration: the element is assigned to the loop variable, then the
switch runs. -/
def loopBody (st : LoopState) (e : linebot.Event) : LoopState :=
  match registered e.Type_ with
  | some f => { event := some e, afterFuncs := st.afterFuncs ++ [f] }
  | none => { event := some e, afterFuncs := st.afterFuncs }

/-- The response of `postMessaging` and the calls of `sendToLxbot` scheduled
by the callbacks registered on it, in the order the callbacks run. -/
structure Posted where
  status : Nat
  body : String
  calls : List (linebot.EventType × linebot.Event)
deriving DecidableEq, Repr

/-- `postMessaging(c)`, given the result of `bot.ParseRequest(c.Request())`.
After the loop `c.String(200, "OK")` writes the response and then runs the
registered callbacks, each reading the loop variable as the loop left it. -/
def postMessaging (parsed : Except String (List linebot.Event)) : Posted :=
  match parsed with
  | .error _ => { status := StatusNotAcceptable, body := "", calls := [] }
  | .ok events =>
    let st := events.foldl loopBody { event := none, afterFuncs := [] }
    { status := 200, body := "OK",
      calls := match st.event with
        | none => []
        | some event => st.afterFuncs.map fun f => f event }

/-! ## Outbound: `parseMsg`, `Send`, `Reply` -/

/-- A call to the platform made by the outbound functions. -/
inductive Call where
  | push (dest text : String)
  | reply (replyToken text : String)
deriving DecidableEq, Repr

/-- `parseMsg(msg)`: the Go triple `(*LXMessage, *Event, error)`. -/
def parseMsg {M D : Type} (libs : Libs M D) (msg : M) :
    Option (lxlib.LXMessage D) × Option linebot.Event × Option String :=
  match libs.NewLXMessage msg with
  | .error err => (none, none, some err)
  | .ok lxmsg =>
    match libs.Decode lxmsg.Raw with
    | .error err => (none, none, some err)
    | .ok raw =>
      let lxmsg := { lxmsg with Raw := .pointer raw }
      match libs.UnmarshalJSON raw.Event with
      | .error err => (none, none, some err)
      | .ok event => (some lxmsg, some event, none)

/-- `send(lxmsg, event)`: one `PushMessage` call, whose error is only logged.
The argument `event.Source.RoomID` is evaluated first and panics when the
event has no source. -/
def send {M D : Type} (libs : Libs M D) (lxmsg : lxlib.LXMessage D) (event : linebot.Event) :
    Outcome Call :=
  let message := lxmsg.Message.Text
  match event.Source with
  | none => .panicked []
  | some source =>
    match libs.PushMessage source.RoomID message with
    | some _ => .returned [.push source.RoomID message]
    | none => .returned [.push source.RoomID message]

/-- `reply(lxmsg, event)`: one `ReplyMessage` call, and `send` when it fails. -/
def reply {M D : Type} (libs : Libs M D) (lxmsg : lxlib.LXMessage D) (event : linebot.Event) :
    Outcome Call :=
  let message := lxmsg.Message.Text
  match libs.ReplyMessage event.ReplyToken message with
  | some _ => (send libs lxmsg event).after [.reply event.ReplyToken message]
  | none => .returned [.reply event.ReplyToken message]

/-- `Send(msg)`. -/
def Send {M D : Type} (libs : Libs M D) (msg : M) : Outcome Call :=
  match parseMsg libs msg with
  | (_, _, some _) => .returned []
  | (some lxmsg, some event, none) => send libs lxmsg event
  | (_, _, none) => .panicked []

/-- `Reply(msg)`. -/
def Reply {M D : Type} (libs : Libs M D) (msg : M) : Outcome Call :=
  match parseMsg libs msg with
  | (_, _, some _) => .returned []
  | (some lxmsg, some event, none) => reply libs lxmsg event
  | (_, _, none) => .panicked []

/-! ## The event types the spec lists, and example data -/

open linebot in
/-- The closed enumeration of the spec: Message, Postback, Follow, Unfollow,
Join, Leave, Beacon. -/
def recognized (t : EventType) : Bool :=
  decide (t ∈ [EventTypeMessage, EventTypePostback, EventTypeFollow, EventTypeUnfollow,
    EventTypeJoin, EventTypeLeave, EventTypeBeacon])

/-- A text message sent in a room. -/
def roomEvent : linebot.Event :=
  { ReplyToken := "token-1", Type_ := "message",
    Source := some { UserID := "U1", RoomID := "R1" },
    Message := .TextMessage "m1" "hello" }

/-- A text message sent in a direct chat: the source has no room ID. -/
def directEvent : linebot.Event :=
  { ReplyToken := "token-2", Type_ := "message",
    Source := some { UserID := "U2", RoomID := "" },
    Message := .TextMessage "m2" "hi" }

/-- An event of a type outside the enumeration. -/
def thingsEvent : linebot.Event :=
  { ReplyToken := "token-3", Type_ := "things",
    Source := some { UserID := "U3", RoomID := "R3" },
    Message := .other }

/-- An image message sent in a room. -/
def imageEvent : linebot.Event :=
  { ReplyToken := "token-4", Type_ := "message",
    Source := some { UserID := "U1", RoomID := "R1" },
    Message := .ImageMessage "m4" "https://example.com/cat.png" }

/-- A text message from a user whose profile cannot be fetched. -/
def strangerEvent : linebot.Event :=
  { ReplyToken := "token-5", Type_ := "message",
    Source := some { UserID := "U9", RoomID := "R1" },
    Message := .TextMessage "m5" "hey" }

/-- A message event decoded from a payload that has no source. -/
def noSourceEvent : linebot.Event :=
  { ReplyToken := "token-6", Type_ := "message",
    Source := none,
    Message := .TextMessage "m6" "ping" }

/-- A small instance of the libraries. The map of a message is the message
record itself; the JSON codec knows five of the example events; the profiles
of `U1`, `U2` and `U3` can be fetched, no other; a reply with `token-2`,
`token-4` or `token-6` fails and every push succeeds. -/
def exampleLibs : Libs (lxlib.LXMessage Unit) Unit where
  GetProfile := fun uid =>
    if uid = "U1" then (some { DisplayName := "Alice" }, none)
    else if uid = "U2" then (some { DisplayName := "Bob" }, none)
    else if uid = "U3" then (some { DisplayName := "Carol" }, none)
    else (none, some "linebot: APIError 404 Not found")
  PushMessage := fun _ _ => none
  ReplyMessage := fun replyToken _ =>
    if replyToken = "token-2" ∨ replyToken = "token-4" ∨ replyToken = "token-6" then
      some "linebot: APIError 400 Invalid reply token"
    else none
  MarshalJSON := fun e =>
    if e = roomEvent then (ascii "room", none)
    else if e = directEvent then (ascii "direct", none)
    else if e = thingsEvent then (ascii "things", none)
    else if e = imageEvent then (ascii "image", none)
    else if e = noSourceEvent then (ascii "nosource", none)
    else ([], some "json: unsupported value")
  UnmarshalJSON := fun b =>
    if b = ascii "room" then .ok roomEvent
    else if b = ascii "direct" then .ok directEvent
    else if b = ascii "things" then .ok thingsEvent
    else if b = ascii "image" then .ok imageEvent
    else if b = ascii "nosource" then .ok noSourceEvent
    else .error "unexpected end of JSON input"
  emptyM :=
    { User := { ID := "", Name := "" }, Room := { ID := "", Name := "", Description := "" },
      Message := { ID := "", Text := "", Attachments := [] }, Raw := .dyn () }
  NewLXMessage := fun m => .ok m
  ToMap := fun lx => (lx, none)
  Decode := fun
    | .struct r => .ok r
    | .pointer r => .ok r
    | .dyn _ => .error "expected a map or struct"

/-- The map `sendToLxbot` sends for `roomEvent` under `exampleLibs`. -/
def roomMsg : lxlib.LXMessage Unit :=
  { User := { ID := "U1", Name := "Alice" },
    Room := { ID := "R1", Name := "LINE", Description := "LINE" },
    Message := { ID := "m1", Text := "hello", Attachments := [] },
    Raw := .struct { EventType := "message", Event := ascii "room" } }

/-- The map `sendToLxbot` sends for `directEvent` under `exampleLibs`. -/
def directMsg : lxlib.LXMessage Unit :=
  { User := { ID := "U2", Name := "Bob" },
    Room := { ID := "", Name := "LINE", Description := "LINE" },
    Message := { ID := "m2", Text := "hi", Attachments := [] },
    Raw := .struct { EventType := "message", Event := ascii "direct" } }

/-- The map `sendToLxbot` sends for `imageEvent` under `exampleLibs`. -/
def imageMsg : lxlib.LXMessage Unit :=
  { User := { ID := "U1", Name := "Alice" },
    Room := { ID := "R1", Name := "LINE", Description := "LINE" },
    Message := { ID := "m4", Text := "[IMAGE MESSAGE]",
                 Attachments := [{ Url := "https://example.com/cat.png", Description := "" }] },
    Raw := .struct { EventType := "message", Event := ascii "image" } }

/-- A map whose raw payload decodes to `noSourceEvent`. -/
def noSourceMsg : lxlib.LXMessage Unit :=
  { User := { ID := "", Name := "" },
    Room := { ID := "", Name := "LINE", Description := "LINE" },
    Message := { ID := "m6", Text := "ping", Attachments := [] },
    Raw := .struct { EventType := "message", Event := ascii "nosource" } }

/-- The map `sendToLxbot` sends under `exampleLibs` when it is called with the
event type `message` and the event `thingsEvent`. -/
def thingsAsMessageMsg : lxlib.LXMessage Unit :=
  { User := { ID := "U3", Name := "Carol" },
    Room := { ID := "R3", Name := "LINE", Description := "LINE" },
    Message := { ID := "", Text := "", Attachments := [] },
    Raw := .struct { EventType := "message", Event := ascii "things" } }

/-! ## Facts about the library models -/

theorem SHA256.sum_length (msg : Bytes) : (SHA256.sum msg).length = 32 := by
  simp [SHA256.sum, SHA256.wordBytes]

theorem SHA256.sum_lt (msg : Bytes) : ∀ x ∈ SHA256.sum msg, x < 256 := by
  intro x hx
  simp only [SHA256.sum, SHA256.wordBytes, List.mem_append, List.mem_cons, List.mem_singleton,
    List.not_mem_nil, or_false] at hx
  omega

theorem hmacSHA256_length (key msg : Bytes) : (hmacSHA256 key msg).length = 32 :=
  SHA256.sum_length _

theorem hmacSHA256_lt (key msg : Bytes) : ∀ x ∈ hmacSHA256 key msg, x < 256 :=
  SHA256.sum_lt _

theorem hmacSHA256_ne_nil (key msg : Bytes) : hmacSHA256 key msg ≠ [] := by
  intro h
  have := hmacSHA256_length key msg
  rw [h] at this
  simp at this

namespace Base64

theorem decodeMap_encodeChar (v : Nat) (hv : v < 64) : decodeMap (encodeChar v) = some v := by
  revert v
  decide

/-- A full group of four characters decodes to the three bytes it encodes. -/
theorem decodeLoop_group (a b c : Nat) (ha : a < 256) (hb : b < 256) (hc : c < 256)
    (rest out : Bytes) :
    decodeLoop (encodeChar (a / 4) :: encodeChar (a % 4 * 16 + b / 16)
      :: encodeChar (b % 16 * 4 + c / 64) :: encodeChar (c % 64) :: rest) [] out
      = decodeLoop rest [] (out ++ [a, b, c]) := by
  have h0 := decodeMap_encodeChar (a / 4) (by omega)
  have h1 := decodeMap_encodeChar (a % 4 * 16 + b / 16) (by omega)
  have h2 := decodeMap_encodeChar (b % 16 * 4 + c / 64) (by omega)
  have h3 := decodeMap_encodeChar (c % 64) (by omega)
  simp only [decodeLoop, h0, h1, h2, h3, List.nil_append, List.cons_append, quantum]
  congr 2
  have e0 : (a / 4 * 262144 + (a % 4 * 16 + b / 16) * 4096 + (b % 16 * 4 + c / 64) * 64 + c % 64)
      / 65536 % 256 = a := by omega
  have e1 : (a / 4 * 262144 + (a % 4 * 16 + b / 16) * 4096 + (b % 16 * 4 + c / 64) * 64 + c % 64)
      / 256 % 256 = b := by omega
  have e2 : (a / 4 * 262144 + (a % 4 * 16 + b / 16) * 4096 + (b % 16 * 4 + c / 64) * 64 + c % 64)
      % 256 = c := by omega
  rw [e0, e1, e2]

theorem decodeLoop_two (a b : Nat) (ha : a < 256) (hb : b < 256) (out : Bytes) :
    decodeLoop [encodeChar (a / 4), encodeChar (a % 4 * 16 + b / 16), encodeChar (b % 16 * 4),
      padChar] [] out = .ok (out ++ [a, b]) := by
  have h0 := decodeMap_encodeChar (a / 4) (by omega)
  have h1 := decodeMap_encodeChar (a % 4 * 16 + b / 16) (by omega)
  have h2 := decodeMap_encodeChar (b % 16 * 4) (by omega)
  have hp : decodeMap 61 = none := by decide
  have e0 : (a / 4 * 262144 + (a % 4 * 16 + b / 16) * 4096 + b % 16 * 4 * 64)
      / 65536 % 256 = a := by omega
  have e1 : (a / 4 * 262144 + (a % 4 * 16 + b / 16) * 4096 + b % 16 * 4 * 64)
      / 256 % 256 = b := by omega
  simp [decodeLoop, h0, h1, h2, hp, skipNewlines, quantum, e0, e1, padChar]

theorem decodeLoop_one (a : Nat) (ha : a < 256) (out : Bytes) :
    decodeLoop [encodeChar (a / 4), encodeChar (a % 4 * 16), padChar, padChar] [] out
      = .ok (out ++ [a]) := by
  have h0 := decodeMap_encodeChar (a / 4) (by omega)
  have h1 := decodeMap_encodeChar (a % 4 * 16) (by omega)
  have hp : decodeMap 61 = none := by decide
  have e0 : (a / 4 * 262144 + a % 4 * 16 * 4096) / 65536 % 256 = a := by omega
  simp [decodeLoop, h0, h1, hp, skipNewlines, quantum, e0, padChar]

theorem decodeLoop_encode (d : Bytes) :
    (∀ x ∈ d, x < 256) → ∀ out, decodeLoop (EncodeToString d) [] out = .ok (out ++ d) := by
  induction d using EncodeToString.induct with
  | case1 a b c rest ih =>
    intro h out
    have ha : a < 256 := h a (by simp)
    have hb : b < 256 := h b (by simp)
    have hc : c < 256 := h c (by simp)
    rw [EncodeToString, decodeLoop_group a b c ha hb hc, ih (fun x hx => h x (by simp [hx]))]
    simp
  | case2 a b =>
    intro h out
    rw [EncodeToString]
    exact decodeLoop_two a b (h a (by simp)) (h b (by simp)) out
  | case3 a =>
    intro h out
    rw [EncodeToString]
    exact decodeLoop_one a (h a (by simp)) out
  | case4 =>
    intro _ out
    simp [EncodeToString, decodeLoop]

/-- Decoding the standard encoding of a byte sequence gives the sequence back. -/
theorem DecodeString_EncodeToString (d : Bytes) (h : ∀ x ∈ d, x < 256) :
    DecodeString (EncodeToString d) = .ok d := by
  simpa [DecodeString] using decodeLoop_encode d h []

end Base64

/-! ## The signature middleware -/

set_option maxRecDepth 100000

/-- C1, counterexample: with secret `secret` and body `body` the header
`3EaYNVf+oSe0OvchRn65s/3iM4/j4U9RlSqoR4wT01V=` is passed on to the next
handler although it is not the base64 encoding of the MAC (which ends in
`01U=`): the two unused low bits of the last character before the padding are
not checked by the decoder. -/
theorem isValidLineSignature_accepts_noncanonical_header :
    isValidLineSignature (ascii "secret")
        { Body := (ascii "body", none),
          XLineSignature := some (ascii "3EaYNVf+oSe0OvchRn65s/3iM4/j4U9RlSqoR4wT01V=") }
      = .next (ascii "body")
    ∧ ascii "3EaYNVf+oSe0OvchRn65s/3iM4/j4U9RlSqoR4wT01V="
      ≠ Base64.EncodeToString (hmacSHA256 (ascii "secret") (ascii "body")) := by
  decide

/-- C1, amended: for every secret `S`, readable body `B` and header value `H`,
the next handler is invoked if and only if `H` decodes under
`base64.StdEncoding` to exactly HMAC-SHA256(S, B); the header
base64(HMAC-SHA256(S, B)) is accepted; and the handler is invoked on the body
that was read. -/
theorem isValidLineSignature_next_iff_decodes (S B H : Bytes) :
    ((isValidLineSignature S { Body := (B, none), XLineSignature := some H }).nextInvoked = true
        ↔ Base64.DecodeString H = .ok (hmacSHA256 S B))
    ∧ isValidLineSignature S
        { Body := (B, none),
          XLineSignature := some (Base64.EncodeToString (hmacSHA256 S B)) } = .next B
    ∧ (∀ body, isValidLineSignature S { Body := (B, none), XLineSignature := some H }
        = .next body → body = B) := by
  refine ⟨?_, ?_, ?_⟩
  · simp only [isValidLineSignature, headerGet, Option.getD_some, hmacEqual]
    cases h : Base64.DecodeString H with
    | error e => simp [Handled.nextInvoked]
    | ok d =>
      by_cases hd : hmacSHA256 S B = d
      · simp [Handled.nextInvoked, hd]
      · simp [Handled.nextInvoked, hd]
        exact fun h => hd h.symm
  · simp [isValidLineSignature, headerGet, hmacEqual,
      Base64.DecodeString_EncodeToString _ (hmacSHA256_lt S B)]
  · intro body
    simp only [isValidLineSignature, headerGet, Option.getD_some, hmacEqual]
    cases h : Base64.DecodeString H with
    | error e => simp
    | ok d =>
      by_cases hd : hmacSHA256 S B = d
      · simp [hd]
        exact fun h => h.symm
      · simp [hd]

/-- C2: the middleware fails closed with one status per failure class. An
unreadable body gives 406; a header that is not valid base64 gives 403; a
header that decodes to bytes other than HMAC-SHA256(secret, body) gives 401,
and so does a missing header (read as the empty string); in none of these is
the next handler invoked. In the remaining case the next handler is invoked
on a request whose body is the bytes that were verified. -/
theorem isValidLineSignature_fails_closed (channelSecret : Bytes) (req : Request) :
    (req.Body.2 ≠ none → isValidLineSignature channelSecret req = .noContent 406)
    ∧ (req.Body.2 = none →
        ∀ e, Base64.DecodeString (headerGet req.XLineSignature) = .error e →
        isValidLineSignature channelSecret req = .noContent 403)
    ∧ (req.Body.2 = none →
        ∀ decoded, Base64.DecodeString (headerGet req.XLineSignature) = .ok decoded →
        decoded ≠ hmacSHA256 channelSecret req.Body.1 →
        isValidLineSignature channelSecret req = .noContent 401)
    ∧ (req.Body.2 = none → req.XLineSignature = none →
        isValidLineSignature channelSecret req = .noContent 401)
    ∧ (req.Body.2 = none →
        Base64.DecodeString (headerGet req.XLineSignature)
          = .ok (hmacSHA256 channelSecret req.Body.1) →
        isValidLineSignature channelSecret req = .next req.Body.1)
    ∧ (∀ status, isValidLineSignature channelSecret req = .noContent status →
        (isValidLineSignature channelSecret req).nextInvoked = false) := by
  obtain ⟨⟨body, err⟩, sig⟩ := req
  refine ⟨?_, ?_, ?_, ?_, ?_, ?_⟩
  · intro h
    cases err with
    | none => exact absurd rfl h
    | some e => rfl
  · intro h e he
    simp only at h
    subst h
    simp only [isValidLineSignature]
    simp only at he
    rw [he]
    rfl
  · intro h d hd hne
    simp only at h hd hne
    subst h
    simp only [isValidLineSignature]
    rw [hd]
    have : hmacEqual (hmacSHA256 channelSecret body) d = false := by
      simp only [hmacEqual, decide_eq_false_iff_not]
      exact fun h => hne h.symm
    simp [this, StatusUnauthorized]
  · intro h hs
    simp only at h hs
    subst h hs
    have hne := hmacSHA256_ne_nil channelSecret body
    simp [isValidLineSignature, headerGet, Base64.DecodeString, Base64.decodeLoop, hmacEqual,
      hne, StatusUnauthorized]
  · intro h hd
    simp only at h hd
    subst h
    simp only [isValidLineSignature]
    rw [hd]
    simp [hmacEqual]
  · intro status h
    rw [h]
    rfl

/-! ## Inbound translation -/

/-- C3: when the profile fetch fails the SDK returns a `nil` profile, and
`sendToLxbot` then dereferences it: once the empty message has been created
the call panics and nothing is sent on the channel. (For an event without a
source the call has panicked before, at `event.Source.UserID`.) -/
theorem sendToLxbot_nil_profile_panics {M D : Type} (libs : Libs M D)
    (eventType : linebot.EventType) (event : linebot.Event)
    (hprofile : ∀ source, event.Source = some source →
      (libs.GetProfile source.UserID).1 = none) :
    sendToLxbot libs eventType event
      = (match event.Source with
        | none => .panicked []
        | some _ =>
          match libs.NewLXMessage libs.emptyM with
          | .error _ => .returned []
          | .ok _ => .panicked [])
    ∧ ∀ msg, sendToLxbot libs eventType event ≠ .returned [msg] := by
  have h : sendToLxbot libs eventType event
      = (match event.Source with
        | none => .panicked []
        | some _ =>
          match libs.NewLXMessage libs.emptyM with
          | .error _ => .returned []
          | .ok _ => .panicked []) := by
    cases hs : event.Source with
    | none => simp only [sendToLxbot, hs]
    | some source => simp only [sendToLxbot, hs, hprofile source hs]
  refine ⟨h, ?_⟩
  intro msg
  rw [h]
  cases event.Source with
  | none => simp
  | some source => cases libs.NewLXMessage libs.emptyM <;> simp

/-- C3, at an input: the profile of `U9` cannot be fetched, and the call for
a text message of that user panics instead of sending a message with an empty
name. -/
theorem sendToLxbot_nil_profile_panics_witness :
    (exampleLibs.GetProfile "U9").1 = none
    ∧ (exampleLibs.GetProfile "U9").2 ≠ none
    ∧ strangerEvent.Source = some { UserID := "U9", RoomID := "R1" }
    ∧ sendToLxbot exampleLibs "message" strangerEvent = .panicked [] :=
  ⟨by decide, by decide, rfl,
    (sendToLxbot_nil_profile_panics exampleLibs "message" strangerEvent (by decide)).1⟩

/-- What `sendToLxbot` sends for an event it translates (the event has a
source, the empty message was created and the profile is there): the map
that `ToMap` makes of the record it has filled in. What that map holds is up
to `ToMap`. -/
theorem sendToLxbot_sends {M D : Type} (libs : Libs M D)
    (eventType : linebot.EventType) (event : linebot.Event) (source : linebot.EventSource)
    (lxmsg : lxlib.LXMessage D) (profile : linebot.UserProfileResponse)
    (hsource : event.Source = some source)
    (hnew : libs.NewLXMessage libs.emptyM = .ok lxmsg)
    (hprofile : (libs.GetProfile source.UserID).1 = some profile) :
    sendToLxbot libs eventType event
      = .returned [(libs.ToMap
          { User := { ID := source.UserID, Name := profile.DisplayName }
            Room := { ID := source.RoomID, Name := "LINE", Description := "LINE" }
            Raw := .struct { EventType := eventType, Event := (libs.MarshalJSON event).1 }
            Message :=
              match event.Message with
              | .TextMessage id text => { ID := id, Text := text, Attachments := [] }
              | .ImageMessage id url =>
                { ID := id, Text := "[IMAGE MESSAGE]",
                  Attachments := [{ Url := url, Description := "" }] }
              | .AudioMessage id url =>
                { ID := id, Text := "[AUDIO MESSAGE]",
                  Attachments := [{ Url := url, Description := "" }] }
              | .VideoMessage id url =>
                { ID := id, Text := "[VIDEO MESSAGE]",
                  Attachments := [{ Url := url, Description := "" }] }
              | .other => lxmsg.Message }).1] := by
  simp only [sendToLxbot, hsource, hnew, hprofile]
  cases event.Message <;> rfl

/-! ## The webhook receiver -/

theorem registered_some (t : linebot.EventType) (f : AfterFunc) (h : registered t = some f) :
    recognized t = true ∧ ∀ event, f event = (t, event) := by
  unfold registered at h
  split_ifs at h with h1 h2 h3 h4 h5 h6 h7 <;>
    (cases h; subst t; exact ⟨by decide, fun _ => rfl⟩)

theorem registered_none (t : linebot.EventType) (h : registered t = none) :
    recognized t = false := by
  unfold registered at h
  split_ifs at h with h1 h2 h3 h4 h5 h6 h7
  simp [recognized, h1, h2, h3, h4, h5, h6, h7]

/-- The loop leaves its variable at the last element and has registered one
callback for each element the switch accepts, in order. -/
theorem foldl_loopBody (events : List linebot.Event) (st : LoopState) :
    (events.foldl loopBody st).afterFuncs
        = st.afterFuncs ++ events.filterMap (fun e => registered e.Type_)
    ∧ (events.foldl loopBody st).event
        = (match events.getLast? with
          | none => st.event
          | some last => some last) := by
  induction events generalizing st with
  | nil => simp
  | cons e rest ih =>
    rw [List.foldl_cons]
    obtain ⟨ih1, ih2⟩ := ih (loopBody st e)
    constructor
    · rw [ih1]
      cases hr : registered e.Type_ <;> simp [loopBody, hr, List.filterMap_cons]
    · rw [ih2]
      cases rest with
      | nil => cases hr : registered e.Type_ <;> simp [loopBody, hr]
      | cons e2 rest2 =>
        have h2 : (e :: e2 :: rest2).getLast? = (e2 :: rest2).getLast? :=
          List.getLast?_cons_cons
        rw [h2]
        cases h : (e2 :: rest2).getLast? with
        | none => simp at h
        | some last => rfl

theorem map_registered (events : List linebot.Event) (last : linebot.Event) :
    (events.filterMap (fun e => registered e.Type_)).map (fun f => f last)
      = (events.filter (fun e => recognized e.Type_)).map (fun e => (e.Type_, last)) := by
  induction events with
  | nil => rfl
  | cons e rest ih =>
    cases hr : registered e.Type_ with
    | none =>
      simp [List.filterMap_cons, hr, registered_none _ hr, ih]
    | some f =>
      obtain ⟨h1, h2⟩ := registered_some _ f hr
      simp [List.filterMap_cons, hr, h1, h2, ih]

/-- The calls of `sendToLxbot` made for a parsed batch: one for each event of
a recognized type, in order, with that event's type and, as the event, the
batch's last element. -/
theorem postMessaging_calls (events : List linebot.Event) :
    (postMessaging (.ok events)).calls
      = (match events.getLast? with
        | none => []
        | some last =>
          (events.filter (fun e => recognized e.Type_)).map (fun e => (e.Type_, last))) := by
  obtain ⟨h1, h2⟩ := foldl_loopBody events { event := none, afterFuncs := [] }
  simp only [postMessaging, h1, h2, List.nil_append]
  cases events.getLast? with
  | none => rfl
  | some last => exact map_registered events last

/-- C5: for every parsed batch the response is 200 with body `OK`, and the
callbacks scheduled are one for each event whose type is among Message,
Postback, Follow, Unfollow, Join, Leave, Beacon, in batch order: an event of
another type schedules nothing and is skipped without effect on the events
around it. -/
theorem postMessaging_ok_schedules_recognized (events : List linebot.Event) :
    (postMessaging (.ok events)).status = 200
    ∧ (postMessaging (.ok events)).body = "OK"
    ∧ (postMessaging (.ok events)).calls.length
        = (events.filter (fun e => recognized e.Type_)).length
    ∧ (postMessaging (.ok events)).calls.map (fun c => c.1)
        = (events.map (fun e => e.Type_)).filter recognized
    ∧ (∀ (before after : List linebot.Event) (e : linebot.Event),
        recognized e.Type_ = false →
        ((postMessaging (.ok (before ++ e :: after))).calls.map (fun c => c.1)
          = (postMessaging (.ok (before ++ after))).calls.map (fun c => c.1))) := by
  have key : ∀ evs : List linebot.Event,
      (postMessaging (.ok evs)).calls.map (fun c => c.1)
        = (evs.map (fun e => e.Type_)).filter recognized := by
    intro evs
    rw [postMessaging_calls]
    cases hl : evs.getLast? with
    | none =>
      have : evs = [] := by simpa using hl
      subst this
      rfl
    | some last =>
      simp [List.filter_map, Function.comp_def]
  refine ⟨rfl, rfl, ?_, key events, ?_⟩
  · have := congrArg List.length (key events)
    simpa [List.filter_map] using this
  · intro before after e he
    rw [key, key]
    simp [List.filter_cons, he]

/-- C6, at the batch of the spec's scenario: a text message event followed by
an event of an unsupported type. One call of `sendToLxbot` is scheduled, with
the type of the first event and, as the event, the second one; the message it
sends carries the payload and the source IDs of the unsupported event and no
text, not those of the text event. -/
theorem postMessaging_text_then_unsupported_forwards_last :
    (postMessaging (.ok [roomEvent, thingsEvent])).calls
      = [(linebot.EventTypeMessage, thingsEvent)]
    ∧ roomEvent.Type_ = linebot.EventTypeMessage
    ∧ recognized thingsEvent.Type_ = false
    ∧ thingsEvent ≠ roomEvent
    ∧ sendToLxbot exampleLibs linebot.EventTypeMessage thingsEvent
      = .returned [thingsAsMessageMsg]
    ∧ sendToLxbot exampleLibs linebot.EventTypeMessage roomEvent = .returned [roomMsg]
    ∧ thingsAsMessageMsg ≠ roomMsg := by
  refine ⟨?_, rfl, ?_, ?_, ?_, ?_, ?_⟩
  · rw [postMessaging_calls]
    decide
  all_goals decide

/-! ## Outbound calls -/

/-- When the three steps of `parseMsg` succeed it returns the message read by
`NewLXMessage`, its raw field replaced by the decoded record, and the event
decoded from the record's payload. -/
theorem parseMsg_ok {M D : Type} (libs : Libs M D) (msg : M) (lxmsg : lxlib.LXMessage D)
    (raw : Raw) (event : linebot.Event)
    (hnew : libs.NewLXMessage msg = .ok lxmsg) (hraw : libs.Decode lxmsg.Raw = .ok raw)
    (hevent : libs.UnmarshalJSON raw.Event = .ok event) :
    parseMsg libs msg = (some { lxmsg with Raw := .pointer raw }, some event, none) := by
  simp only [parseMsg, hnew, hraw, hevent]

/-- Without a source `send` panics before the push. -/
theorem send_without_source {M D : Type} (libs : Libs M D) (lxmsg : lxlib.LXMessage D)
    (event : linebot.Event) (hsource : event.Source = none) :
    send libs lxmsg event = .panicked [] := by
  simp only [send, hsource]

/-- With a source `send` makes one push to its room ID, whatever the result
of the push. -/
theorem send_with_source {M D : Type} (libs : Libs M D) (lxmsg : lxlib.LXMessage D)
    (event : linebot.Event) (source : linebot.EventSource) (hsource : event.Source = some source) :
    send libs lxmsg event = .returned [.push source.RoomID lxmsg.Message.Text] := by
  simp only [send, hsource]
  cases libs.PushMessage source.RoomID lxmsg.Message.Text <;> rfl

/-- C7, counterexample. The raw event of `directMsg` decodes to an event from
a direct chat, with user ID `U2` and an empty room ID: the reply with its
token fails, and the push that follows is addressed to the empty room ID, so
it reaches neither a room nor the user. The raw event of `noSourceMsg`
decodes to an event without a source: the reply fails and the fallback
panics, so no push follows the failed reply. -/
theorem Reply_direct_chat_fallback_pushes_to_empty_room :
    (parseMsg exampleLibs directMsg).2.1 = some directEvent
    ∧ directEvent.Source = some { UserID := "U2", RoomID := "" }
    ∧ Reply exampleLibs directMsg = .returned [.reply "token-2" "hi", .push "" "hi"]
    ∧ Reply exampleLibs directMsg ≠ .returned [.reply "token-2" "hi", .push "U2" "hi"]
    ∧ (parseMsg exampleLibs noSourceMsg).2.1 = some noSourceEvent
    ∧ (parseMsg exampleLibs noSourceMsg).2.2 = none
    ∧ exampleLibs.ReplyMessage "token-6" "ping" ≠ none
    ∧ Reply exampleLibs noSourceMsg = .panicked [.reply "token-6" "ping"] := by
  decide

/-- C7, amended: for a message whose raw event decodes to an event that has a
source, `Reply` makes one reply call, with the reconstructed event's reply
token and the text `Message.Text`. When that call succeeds it makes no other
call. When it fails it makes one push call after it, with the same text and
addressed to the room ID of the same reconstructed event's source (also when
that room ID is empty), and nothing more, whether or not the push fails. -/
theorem Reply_one_reply_then_push_on_failure {M D : Type} (libs : Libs M D) (msg : M)
    (lxmsg : lxlib.LXMessage D) (raw : Raw) (event : linebot.Event)
    (source : linebot.EventSource)
    (hnew : libs.NewLXMessage msg = .ok lxmsg) (hraw : libs.Decode lxmsg.Raw = .ok raw)
    (hevent : libs.UnmarshalJSON raw.Event = .ok event)
    (hsource : event.Source = some source) :
    (libs.ReplyMessage event.ReplyToken lxmsg.Message.Text = none →
        Reply libs msg = .returned [.reply event.ReplyToken lxmsg.Message.Text])
    ∧ (∀ err, libs.ReplyMessage event.ReplyToken lxmsg.Message.Text = some err →
        Reply libs msg = .returned [.reply event.ReplyToken lxmsg.Message.Text,
                                    .push source.RoomID lxmsg.Message.Text]) := by
  have hp := parseMsg_ok libs msg lxmsg raw event hnew hraw hevent
  have hs := send_with_source libs { lxmsg with Raw := .pointer raw } event source hsource
  constructor
  · intro h
    simp only [Reply, hp, reply, h]
  · intro err h
    simp only [Reply, hp, reply, h, hs, Outcome.after]
    rfl

/-- C7, at an input: the reply with `token-4` fails, and one push to room `R1`
follows. -/
theorem Reply_one_reply_then_push_on_failure_witness :
    Reply exampleLibs imageMsg
      = .returned [.reply "token-4" "[IMAGE MESSAGE]", .push "R1" "[IMAGE MESSAGE]"] :=
  (Reply_one_reply_then_push_on_failure exampleLibs imageMsg imageMsg
    { EventType := "message", Event := ascii "image" } imageEvent
    { UserID := "U1", RoomID := "R1" } rfl rfl rfl rfl).2
    "linebot: APIError 400 Invalid reply token" (by decide)

/-- C8, counterexample. The raw event of `directMsg` decodes to an event from
a direct chat, with user ID `U2` and an empty room ID: `Send` pushes to the
empty room ID, not to the user ID. The raw event of `noSourceMsg` decodes to
an event without a source: `Send` panics and makes no push. -/
theorem Send_direct_chat_pushes_to_empty_room :
    parseMsg exampleLibs directMsg
      = (some { directMsg with Raw := .pointer { EventType := "message",
                                                 Event := ascii "direct" } },
         some directEvent, none)
    ∧ directEvent.Source = some { UserID := "U2", RoomID := "" }
    ∧ Send exampleLibs directMsg = .returned [.push "" "hi"]
    ∧ Send exampleLibs directMsg ≠ .returned [.push "U2" "hi"]
    ∧ (parseMsg exampleLibs noSourceMsg).2.1 = some noSourceEvent
    ∧ (parseMsg exampleLibs noSourceMsg).2.2 = none
    ∧ Send exampleLibs noSourceMsg = .panicked [] := by
  decide

/-- C8, amended: for a message whose raw event decodes to an event that has a
source, `Send` makes exactly one push call, whether or not it fails, with the
text `Message.Text` and addressed to the room ID of the reconstructed event's
source, also when that room ID is empty. -/
theorem Send_pushes_once_to_room_id {M D : Type} (libs : Libs M D) (msg : M)
    (lxmsg : lxlib.LXMessage D) (raw : Raw) (event : linebot.Event)
    (source : linebot.EventSource)
    (hnew : libs.NewLXMessage msg = .ok lxmsg) (hraw : libs.Decode lxmsg.Raw = .ok raw)
    (hevent : libs.UnmarshalJSON raw.Event = .ok event)
    (hsource : event.Source = some source) :
    Send libs msg = .returned [.push source.RoomID lxmsg.Message.Text] := by
  have hp := parseMsg_ok libs msg lxmsg raw event hnew hraw hevent
  have hs := send_with_source libs { lxmsg with Raw := .pointer raw } event source hsource
  simp only [Send, hp, hs]

/-- C8, at an input: the message of the room event is pushed to room `R1`. -/
theorem Send_pushes_once_to_room_id_witness :
    Send exampleLibs roomMsg = .returned [.push "R1" "hello"] :=
  Send_pushes_once_to_room_id exampleLibs roomMsg roomMsg
    { EventType := "message", Event := ascii "room" } roomEvent
    { UserID := "U1", RoomID := "R1" } rfl rfl rfl rfl

/-- C9: when `parseMsg` fails at any of its three steps (the map is not a
message, the raw field does not decode into a `Raw` record, or the record's
payload is not event JSON) it returns that error with no message and no
event, and `Send` and `Reply` return without a platform call. -/
theorem parseMsg_failure_no_platform_call {M D : Type} (libs : Libs M D) (msg : M) :
    (∀ err, libs.NewLXMessage msg = .error err →
        parseMsg libs msg = (none, none, some err)
        ∧ Send libs msg = .returned [] ∧ Reply libs msg = .returned [])
    ∧ (∀ lxmsg err, libs.NewLXMessage msg = .ok lxmsg → libs.Decode lxmsg.Raw = .error err →
        parseMsg libs msg = (none, none, some err)
        ∧ Send libs msg = .returned [] ∧ Reply libs msg = .returned [])
    ∧ (∀ lxmsg raw err, libs.NewLXMessage msg = .ok lxmsg → libs.Decode lxmsg.Raw = .ok raw →
        libs.UnmarshalJSON raw.Event = .error err →
        parseMsg libs msg = (none, none, some err)
        ∧ Send libs msg = .returned [] ∧ Reply libs msg = .returned []) := by
  refine ⟨?_, ?_, ?_⟩
  · intro err h
    have hp : parseMsg libs msg = (none, none, some err) := by simp only [parseMsg, h]
    exact ⟨hp, by simp only [Send, hp], by simp only [Reply, hp]⟩
  · intro lxmsg err h1 h2
    have hp : parseMsg libs msg = (none, none, some err) := by simp only [parseMsg, h1, h2]
    exact ⟨hp, by simp only [Send, hp], by simp only [Reply, hp]⟩
  · intro lxmsg raw err h1 h2 h3
    have hp : parseMsg libs msg = (none, none, some err) := by
      simp only [parseMsg, h1, h2, h3]
    exact ⟨hp, by simp only [Send, hp], by simp only [Reply, hp]⟩

end AdapterLine
